import Mathlib

/-!
# fill-postgresql: process bootstrap, logging reload loop, exit codes

A shallow embedding of `src/main.cpp`.  The program is stateful and talks to
collaborators whose code lives elsewhere (appbase, fc, boost), so every
function of the file becomes a state-passing program over a `World` that
records, in order, each collaborator call and each log record, together with
the number of outstanding `async_wait` registrations.  What a collaborator
answers (a value, or a thrown object) is read from an `Env`.

Conventions:
* every collaborator call may throw; a call that throws is still recorded;
* the log macros `ilog` and `elog` write one record and return;
* a `try`/`catch` is `tryCatch`, the catch clauses being tried in source order;
* `app().exec()` is a collaborator call like the others; what the event loop
  does with the registered handler is described separately by `deliver`.
-/

namespace FillPostgresql

/-! ## Thrown objects -/

/-- A thrown C++ object, described by the answers it gives to the catch clauses
that occur in `main.cpp`: whether it is-a `fc::exception`,
`boost::interprocess::bad_alloc`, `boost::exception`, `std::runtime_error`,
`std::exception`.  The class hierarchy is not constrained here, so every
statement proved for all `Fault`s covers every real exception object. -/
structure Fault where
  is_fc_exception : Bool
  is_interprocess_bad_alloc : Bool
  is_boost_exception : Bool
  is_runtime_error : Bool
  is_std_exception : Bool
  deriving DecidableEq, Repr

/-! ## Collaborator calls and log records -/

/-- The collaborator calls made by `main.cpp`, one constructor per call site
expression (argument evaluation such as `app().get_io_service()` or
`root / "..."` is part of the call it feeds). -/
inductive Call where
  /-- Line 78, `fc::app_path()`. -/
  | app_path
  /-- Line 79, `app().set_default_data_dir(...)`. -/
  | set_default_data_dir
  /-- Line 80, `app().set_default_config_dir(...)`. -/
  | set_default_config_dir
  /-- Line 81, the call of `app().initialize` with `argc, argv`. -/
  | initialize_app
  /-- Lines 49 and 60, `app().get_logging_conf()`. -/
  | get_logging_conf
  /-- Lines 50 and 61, `fc::exists(config_path)`. -/
  | fc_exists
  /-- Lines 26 and 62, `fc::configure_logging(config_path)`. -/
  | fc_configure_logging
  /-- Lines 53 and 64, `iter.second->initialize(app().get_io_service())` for
  the appender registered under the given name. -/
  | initialize_appender (name : String)
  /-- Line 45, construction of the `boost::asio::signal_set` for `SIGHUP`. -/
  | signal_set
  /-- Line 46, `sighup_set->async_wait(handler)`. -/
  | async_wait
  /-- Line 84, `app().version_string()`. -/
  | version_string
  /-- Line 85, `app().full_config_file_path().string()`. -/
  | full_config_file_path
  /-- Line 86, `app().data_dir().string()`. -/
  | data_dir
  /-- Line 87, `app().startup()`. -/
  | startup
  /-- Line 88, `app().exec()`. -/
  | exec
  deriving DecidableEq, Repr

/-- The value substituted into a log format string. -/
inductive LogArg where
  | none
  /-- Value of `e.to_detail_string()`. -/
  | to_detail_string (e : Fault)
  /-- Value of `boost::diagnostic_information(e)`. -/
  | diagnostic_information (e : Fault)
  /-- Value of `e.what()`. -/
  | what (e : Fault)
  /-- Value returned by the immediately preceding accessor call. -/
  | value_of (c : Call)
  deriving DecidableEq, Repr

/-- What a run leaves behind, in program order. -/
inductive Event where
  | call (c : Call)
  /-- An `ilog(...)` record (informational severity). -/
  | ilog (format : String) (arg : LogArg)
  /-- An `elog(...)` record (error severity). -/
  | elog (format : String) (arg : LogArg)
  deriving DecidableEq, Repr

/-! ## World, environment, programs -/

/-- Observable process state: the events so far and the number of
`async_wait` registrations on the reload signal that have not completed. -/
structure World where
  trace : List Event
  watches : Nat
  deriving DecidableEq, Repr

/-- The world at process start: nothing happened, nothing is registered. -/
def World.start : World := { trace := [], watches := 0 }

/-- What the collaborators answer during one activation (the start-up
sequence of `main`, or one run of the signal handler). -/
structure Env where
  /-- The object a call throws, if it throws. -/
  faultAt : Call → Option Fault
  /-- What `app().initialize` returns when it returns. -/
  initialize_result : Bool
  /-- What `fc::exists(config_path)` returns when it returns. -/
  config_exists : Bool
  /-- Keys of `fc::get_appender_map()` in the order the range-for visits them. -/
  appenders : List String

/-- How a piece of C++ code ends: it returns a value or an exception leaves it. -/
inductive Res (α : Type) where
  | ok (a : α)
  | thrown (f : Fault)
  deriving DecidableEq, Repr

/-- A program: from the world before to the world after and the way it ended. -/
def Prog (α : Type) : Type := World → World × Res α

/-- Sequencing: the continuation runs only when the first part returned. -/
def Prog.bind {α β : Type} (p : Prog α) (k : α → Prog β) : Prog β := fun w =>
  match p w with
  | (w1, .ok a) => k a w1
  | (w1, .thrown f) => (w1, .thrown f)

instance : Monad Prog where
  pure := fun a w => (w, .ok a)
  bind := Prog.bind

/-- A `throw` expression. -/
def throwFault {α : Type} (f : Fault) : Prog α := fun w => (w, .thrown f)

/-- A C++ `try { body } catch ...`: `handler` stands for the whole list of catch
clauses and runs in the world the body left behind. -/
def tryCatch {α : Type} (body : Prog α) (handler : Fault → Prog α) : Prog α := fun w =>
  match body w with
  | (w1, .ok a) => (w1, .ok a)
  | (w1, .thrown f) => handler f w1

/-- Append one event to the trace. -/
def emit (e : Event) (w : World) : World := { w with trace := w.trace ++ [e] }

/-- A collaborator call: it is recorded, then returns or throws as `env` says. -/
def call (env : Env) (c : Call) : Prog Unit := fun w =>
  match env.faultAt c with
  | none => (emit (.call c) w, .ok ())
  | some f => (emit (.call c) w, .thrown f)

/-- Modelled from the spec: the `ilog` macro of fc (not in `src/`) emits one
informational log record and returns. -/
def ilog (format : String) (arg : LogArg) : Prog Unit := fun w =>
  (emit (.ilog format arg) w, .ok ())

/-- Modelled from the spec: the `elog` macro of fc (not in `src/`) emits one
error log record and returns. -/
def elog (format : String) (arg : LogArg) : Prog Unit := fun w =>
  (emit (.elog format arg) w, .ok ())

/-- Modelled from the spec: a successful `async_wait` leaves one more Pending
Signal Watch outstanding (boost.asio is not in `src/`). -/
def arm : Prog Unit := fun w => ({ w with watches := w.watches + 1 }, .ok ())

/-! ## The functions of `main.cpp` -/

namespace detail

/-- Lines 23-40, `detail::configure_logging`. -/
def configure_logging (env : Env) : Prog Unit :=
  tryCatch
    (tryCatch (call env .fc_configure_logging)
      (fun f => do
        elog "Error reloading logging.json" .none
        throwFault f))
    (fun f =>
      if f.is_fc_exception then elog "${e}" (.to_detail_string f)
      else if f.is_boost_exception then elog "${e}" (.diagnostic_information f)
      else if f.is_std_exception then elog "${e}" (.what f)
      else pure ())

end detail

/-- The range-for of lines 52-53 and 63-64 over the appender map. -/
def initialize_appenders (env : Env) : List String → Prog Unit
  | [] => pure ()
  | name :: rest => do
    call env (.initialize_appender name)
    initialize_appenders env rest

/-- Lines 44-46 and 57, `logging_conf_loop`: build the signal set and register
the handler on it. -/
def logging_conf_loop (env : Env) : Prog Unit := do
  call env .signal_set
  call env .async_wait
  arm

/-- Lines 46-56, the lambda handed to `async_wait`, run with the error code
`err` of the completed wait. -/
def on_signal (env : Env) (err : Int) : Prog Unit :=
  if err = 0 then do
    ilog "Received HUP.  Reloading logging configuration." .none
    call env .get_logging_conf
    call env .fc_exists
    if env.config_exists then detail.configure_logging env
    initialize_appenders env env.appenders
    logging_conf_loop env
  else pure ()

/-- Lines 59-67, `initialize_logging`. -/
def initialize_logging (env : Env) : Prog Unit := do
  call env .get_logging_conf
  call env .fc_exists
  if env.config_exists then call env .fc_configure_logging
  initialize_appenders env env.appenders
  logging_conf_loop env

/-- Lines 69-74, `enum return_codes`. -/
inductive return_codes where
  | OTHER_FAIL
  | INITIALIZE_FAIL
  | SUCCESS
  | BAD_ALLOC
  deriving DecidableEq, Repr

/-- The enumerator values of lines 70-73. -/
def return_codes.toInt : return_codes → Int
  | .OTHER_FAIL => -2
  | .INITIALIZE_FAIL => -1
  | .SUCCESS => 0
  | .BAD_ALLOC => 1

/-- Lines 77-88, the `try` block of `main`.  `some code` is a `return code`
executed inside the block, `none` means control fell out of its end. -/
def main_try (env : Env) : Prog (Option return_codes) := do
  call env .app_path
  call env .set_default_data_dir
  call env .set_default_config_dir
  call env .initialize_app
  if !env.initialize_result then
    return some .INITIALIZE_FAIL
  initialize_logging env
  call env .version_string
  ilog "fill-postgresql version ${ver}" (.value_of .version_string)
  call env .full_config_file_path
  ilog "fill-postgresql using configuration file ${c}" (.value_of .full_config_file_path)
  call env .data_dir
  ilog "fill-postgresql data directory is ${d}" (.value_of .data_dir)
  call env .startup
  call env .exec
  return none

/-- Lines 89-107, the catch clauses of `main` in source order; the first
clause the thrown object matches runs. -/
def main_catch (f : Fault) : Prog return_codes :=
  if f.is_fc_exception then do
    elog "${e}" (.to_detail_string f)
    return .OTHER_FAIL
  else if f.is_interprocess_bad_alloc then do
    elog "bad alloc" .none
    return .BAD_ALLOC
  else if f.is_boost_exception then do
    elog "${e}" (.diagnostic_information f)
    return .OTHER_FAIL
  else if f.is_runtime_error then do
    elog "${e}" (.what f)
    return .OTHER_FAIL
  else if f.is_std_exception then do
    elog "${e}" (.what f)
    return .OTHER_FAIL
  else do
    elog "unknown exception" .none
    return .OTHER_FAIL

/-- Lines 76-110, `main`: the world it leaves and the `int` it returns. -/
def main (env : Env) (w : World) : World × Res Int :=
  match tryCatch (do
      match ← main_try env with
      | some code => return code
      | none => return .SUCCESS) main_catch w with
  | (w1, .ok code) => (w1, .ok code.toInt)
  | (w1, .thrown f) => (w1, .thrown f)

/-! ## The event loop and observers -/

/-- Modelled from the spec: completion of the outstanding Pending Signal Watch
(boost.asio is not in `src/`).  The registration is consumed and its handler
runs once with the error code of the wait: `0` for a delivered signal, anything
else for a cancelled wait.  With nothing registered no handler runs. -/
def deliver (env : Env) (err : Int) : Prog Unit := fun w =>
  match w.watches with
  | 0 => (w, .ok ())
  | n + 1 => on_signal env err { w with watches := n }

/-- Modelled from the spec: the event loop (boost.asio is not in `src/`) handles
completions strictly one after the other, each with the collaborator answers
of its own moment; an exception leaving a handler ends the loop. -/
def run_deliveries : List (Env × Int) → Prog Unit
  | [] => pure ()
  | d :: rest => do
    deliver d.1 d.2
    run_deliveries rest

/-- Whether an event is an error-severity log record. -/
def Event.isElog : Event → Bool
  | .elog _ _ => true
  | _ => false

/-- Number of error-severity log records in a trace. -/
def elogCount (t : List Event) : Nat := t.countP Event.isElog

/-- The collaborator calls of a trace, in order. -/
def callsOf : List Event → List Call
  | [] => []
  | .call c :: t => c :: callsOf t
  | _ :: t => callsOf t

/-- The informational record written at the start of a reload. -/
def hupNotice : Event := .ilog "Received HUP.  Reloading logging configuration." .none

/-- The event recorded for the initialisation of one appender. -/
def appenderEvent (name : String) : Event := .call (.initialize_appender name)

/-! ## Predicates used in the statements -/

/-- Every collaborator call that the start-up sequence of `main` makes returns
rather than throws (`fc::configure_logging` is only called, hence only
constrained, when the configuration path exists). -/
structure StartupReturns (env : Env) : Prop where
  app_path : env.faultAt .app_path = none
  set_default_data_dir : env.faultAt .set_default_data_dir = none
  set_default_config_dir : env.faultAt .set_default_config_dir = none
  initialize_app : env.faultAt .initialize_app = none
  get_logging_conf : env.faultAt .get_logging_conf = none
  fc_exists : env.faultAt .fc_exists = none
  fc_configure_logging : env.config_exists = true → env.faultAt .fc_configure_logging = none
  appenders : ∀ n ∈ env.appenders, env.faultAt (.initialize_appender n) = none
  signal_set : env.faultAt .signal_set = none
  async_wait : env.faultAt .async_wait = none
  version_string : env.faultAt .version_string = none
  full_config_file_path : env.faultAt .full_config_file_path = none
  data_dir : env.faultAt .data_dir = none
  startup : env.faultAt .startup = none
  exec : env.faultAt .exec = none

/-- Every collaborator call of one handler run, other than
`fc::configure_logging` itself, returns rather than throws. -/
structure ReloadReturns (env : Env) : Prop where
  get_logging_conf : env.faultAt .get_logging_conf = none
  fc_exists : env.faultAt .fc_exists = none
  appenders : ∀ n ∈ env.appenders, env.faultAt (.initialize_appender n) = none
  signal_set : env.faultAt .signal_set = none
  async_wait : env.faultAt .async_wait = none

/-- A program that leaves the number of events satisfying `P` unchanged,
however it ends: it adds no such event. -/
def Keeps (P : Event → Bool) {α : Type} (p : Prog α) : Prop :=
  ∀ w, (p w).1.trace.countP P = w.trace.countP P

/-- Whether an event is the construction of a signal set, the first step of
`logging_conf_loop`. -/
def Event.isRearm : Event → Bool
  | .call .signal_set => true
  | _ => false

/-! ## Concrete collaborators used to exercise the statements -/

/-- Collaborators that all return: the application initialises, the
configuration file exists, two appenders are registered. -/
def quietEnv : Env :=
  { faultAt := fun _ => none, initialize_result := true, config_exists := true,
    appenders := ["stderr", "net"] }

/-- As `quietEnv`, but the call `c` throws `f`. -/
def failingAt (c : Call) (f : Fault) : Env :=
  { quietEnv with faultAt := fun d => if d = c then some f else none }

/-- As `quietEnv`, but `app().initialize` answers `false`. -/
def refusingApp : Env := { quietEnv with initialize_result := false }

/-- As `quietEnv`, but the configuration file is absent. -/
def noConfigFile : Env := { quietEnv with config_exists := false }

/-- A `std::runtime_error`. -/
def runtimeError : Fault :=
  { is_fc_exception := false, is_interprocess_bad_alloc := false, is_boost_exception := false,
    is_runtime_error := true, is_std_exception := true }

/-- A `boost::interprocess::bad_alloc`. -/
def interprocessBadAlloc : Fault :=
  { is_fc_exception := false, is_interprocess_bad_alloc := true, is_boost_exception := false,
    is_runtime_error := false, is_std_exception := true }

/-- As `quietEnv`, but the initialisation of the appender `stderr` throws a
`std::runtime_error`. -/
def brokenAppender : Env :=
  { quietEnv with
    faultAt := fun c => if c = .initialize_appender "stderr" then some runtimeError else none }

theorem pure_apply {α : Type} (a : α) (w : World) :
    (pure a : Prog α) w = (w, .ok a) := rfl

theorem bind_apply {α β : Type} (p : Prog α) (k : α → Prog β) (w : World) :
    (p >>= k) w =
      match p w with
      | (w1, .ok a) => k a w1
      | (w1, .thrown f) => (w1, .thrown f) := rfl

theorem call_returns {env : Env} {c : Call} (h : env.faultAt c = none) (w : World) :
    call env c w = (emit (.call c) w, .ok ()) := by
  simp [call, h]

theorem call_throws {env : Env} {c : Call} {f : Fault} (h : env.faultAt c = some f)
    (w : World) : call env c w = (emit (.call c) w, .thrown f) := by
  simp [call, h]

theorem callsOf_append (a b : List Event) : callsOf (a ++ b) = callsOf a ++ callsOf b := by
  induction a with
  | nil => rfl
  | cons e t ih => cases e <;> simp [callsOf, ih]

theorem elogCount_append (a b : List Event) :
    elogCount (a ++ b) = elogCount a + elogCount b := by
  simp [elogCount, List.countP_append]

theorem initialize_appenders_returns (env : Env) (names : List String)
    (h : ∀ n ∈ names, env.faultAt (.initialize_appender n) = none) (w : World) :
    initialize_appenders env names w =
      ({ w with trace := w.trace ++ names.map appenderEvent }, .ok ()) := by
  induction names generalizing w with
  | nil => simp [initialize_appenders, pure_apply]
  | cons n rest ih =>
    have hn : env.faultAt (.initialize_appender n) = none := h n (List.mem_cons_self n rest)
    have hrest : ∀ m ∈ rest, env.faultAt (.initialize_appender m) = none :=
      fun m hm => h m (List.mem_cons_of_mem n hm)
    simp [initialize_appenders, bind_apply, call_returns hn, ih hrest, emit, appenderEvent]

theorem logging_conf_loop_returns (env : Env) (h1 : env.faultAt .signal_set = none)
    (h2 : env.faultAt .async_wait = none) (w : World) :
    logging_conf_loop env w =
      ({ trace := w.trace ++ [.call .signal_set, .call .async_wait],
         watches := w.watches + 1 }, .ok ()) := by
  simp [logging_conf_loop, bind_apply, call_returns h1, call_returns h2, emit, arm]

theorem callsOf_map_appenderEvent (names : List String) :
    callsOf (names.map appenderEvent) = names.map Call.initialize_appender := by
  induction names with
  | nil => rfl
  | cons n rest ih => simp [callsOf, appenderEvent, ih]

theorem elogCount_map_appenderEvent (names : List String) :
    elogCount (names.map appenderEvent) = 0 := by
  induction names with
  | nil => rfl
  | cons n rest ih =>
    simp only [List.map_cons, elogCount] at ih ⊢
    simp [appenderEvent, Event.isElog, ih]

theorem bind_ok {α β : Type} {p : Prog α} {k : α → Prog β} {w : World} {b : β}
    (h : ((p >>= k) w).2 = .ok b) : ∃ a, (p w).2 = .ok a ∧ (k a (p w).1).2 = .ok b := by
  rw [bind_apply] at h
  rcases hp : p w with ⟨w1, r⟩
  cases r with
  | ok a => rw [hp] at h; exact ⟨a, rfl, h⟩
  | thrown f => rw [hp] at h; cases h

theorem call_ok {env : Env} {c : Call} {w : World} (h : (call env c w).2 = .ok ()) :
    env.faultAt c = none := by
  cases hc : env.faultAt c with
  | none => rfl
  | some f => rw [call_throws hc] at h; cases h

theorem initialize_appenders_ok {env : Env} {names : List String} {w : World}
    (h : (initialize_appenders env names w).2 = .ok ()) :
    ∀ n ∈ names, env.faultAt (.initialize_appender n) = none := by
  induction names generalizing w with
  | nil => intro n hn; cases hn
  | cons m rest ih =>
    simp only [initialize_appenders] at h
    obtain ⟨_, hm, hrest⟩ := bind_ok h
    intro n hn
    rcases List.mem_cons.mp hn with rfl | hn
    · exact call_ok hm
    · exact ih hrest n hn

theorem main_of_thrown {env : Env} {w w1 : World} {f : Fault}
    (h : main_try env w = (w1, .thrown f)) :
    main env w =
      match main_catch f w1 with
      | (w2, .ok code) => (w2, .ok code.toInt)
      | (w2, .thrown g) => (w2, .thrown g) := by
  simp [main, tryCatch, bind_apply, h]

theorem main_of_return {env : Env} {w w1 : World} {code : return_codes}
    (h : main_try env w = (w1, .ok (some code))) : main env w = (w1, .ok code.toInt) := by
  simp [main, tryCatch, bind_apply, pure_apply, h]

theorem main_of_fallthrough {env : Env} {w w1 : World}
    (h : main_try env w = (w1, .ok none)) : main env w = (w1, .ok 0) := by
  simp [main, tryCatch, bind_apply, pure_apply, h, return_codes.toInt]

/-- The catch clauses of `main` always return, with `BAD_ALLOC` or `OTHER_FAIL`,
after writing exactly one error record. -/
theorem main_catch_spec (f : Fault) (w : World) :
    ∃ e, Event.isElog e = true ∧
      main_catch f w = (emit e w,
        .ok (if f.is_fc_exception = false ∧ f.is_interprocess_bad_alloc = true
          then return_codes.BAD_ALLOC else return_codes.OTHER_FAIL)) := by
  rcases f with ⟨a, b, c, d, e⟩
  cases a <;> cases b <;> cases c <;> cases d <;> cases e <;>
    (refine ⟨_, ?_, rfl⟩; rfl)

theorem initialize_logging_returns (env : Env)
    (h5 : env.faultAt .get_logging_conf = none) (h6 : env.faultAt .fc_exists = none)
    (h7 : env.config_exists = true → env.faultAt .fc_configure_logging = none)
    (h8 : ∀ n ∈ env.appenders, env.faultAt (.initialize_appender n) = none)
    (h9 : env.faultAt .signal_set = none) (h10 : env.faultAt .async_wait = none)
    (w : World) :
    initialize_logging env w =
      ({ trace := w.trace ++ [.call .get_logging_conf, .call .fc_exists] ++
            (if env.config_exists then [.call .fc_configure_logging] else []) ++
            env.appenders.map appenderEvent ++ [.call .signal_set, .call .async_wait],
         watches := w.watches + 1 }, .ok ()) := by
  cases hex : env.config_exists with
  | false =>
    simp [initialize_logging, bind_apply, pure_apply, call_returns h5, call_returns h6,
      initialize_appenders_returns env _ h8, logging_conf_loop_returns env h9 h10, emit, hex]
  | true =>
    simp [initialize_logging, bind_apply, pure_apply, call_returns h5, call_returns h6,
      call_returns (h7 hex), initialize_appenders_returns env _ h8,
      logging_conf_loop_returns env h9 h10, emit, hex]

theorem initialize_logging_ok {env : Env} {w : World}
    (h : (initialize_logging env w).2 = .ok ()) :
    env.faultAt .get_logging_conf = none ∧ env.faultAt .fc_exists = none ∧
    (env.config_exists = true → env.faultAt .fc_configure_logging = none) ∧
    (∀ n ∈ env.appenders, env.faultAt (.initialize_appender n) = none) ∧
    env.faultAt .signal_set = none ∧ env.faultAt .async_wait = none := by
  simp only [initialize_logging] at h
  obtain ⟨_, h5, h⟩ := bind_ok h
  obtain ⟨_, h6, h⟩ := bind_ok h
  have h5 := call_ok h5
  have h6 := call_ok h6
  cases hex : env.config_exists with
  | false =>
    simp only [hex, Bool.false_eq_true, if_false] at h
    obtain ⟨_, -, h⟩ := bind_ok h
    obtain ⟨_, h8, h⟩ := bind_ok h
    simp only [logging_conf_loop] at h
    obtain ⟨_, h9, h⟩ := bind_ok h
    obtain ⟨_, h10, -⟩ := bind_ok h
    exact ⟨h5, h6, fun hc => (Bool.false_ne_true hc).elim, initialize_appenders_ok h8,
      call_ok h9, call_ok h10⟩
  | true =>
    simp only [hex, if_true] at h
    obtain ⟨_, h7, h⟩ := bind_ok h
    obtain ⟨_, h8, h⟩ := bind_ok h
    simp only [logging_conf_loop] at h
    obtain ⟨_, h9, h⟩ := bind_ok h
    obtain ⟨_, h10, -⟩ := bind_ok h
    exact ⟨h5, h6, fun _ => call_ok h7, initialize_appenders_ok h8,
      call_ok h9, call_ok h10⟩

/-- How the try block of `main` can end without an exception: by its
`return INITIALIZE_FAIL` after `initialize` answered `false`, or by reaching its
end after `initialize` answered `true` and every call returned. -/
theorem main_try_ok {env : Env} {w : World} {r : Option return_codes}
    (h : (main_try env w).2 = .ok r) :
    (r = some .INITIALIZE_FAIL ∧ env.initialize_result = false) ∨
    (r = none ∧ env.initialize_result = true ∧ StartupReturns env) := by
  simp only [main_try] at h
  obtain ⟨_, h1, h⟩ := bind_ok h
  obtain ⟨_, h2, h⟩ := bind_ok h
  obtain ⟨_, h3, h⟩ := bind_ok h
  obtain ⟨_, h4, h⟩ := bind_ok h
  cases hres : env.initialize_result with
  | false =>
    left
    simp only [hres, Bool.not_false, if_true, pure_apply] at h
    cases h
    exact ⟨rfl, rfl⟩
  | true =>
    right
    simp only [hres, Bool.not_true, Bool.false_eq_true, if_false] at h
    obtain ⟨_, -, h⟩ := bind_ok h
    obtain ⟨_, hl, h⟩ := bind_ok h
    obtain ⟨_, h11, h⟩ := bind_ok h
    obtain ⟨_, -, h⟩ := bind_ok h
    obtain ⟨_, h12, h⟩ := bind_ok h
    obtain ⟨_, -, h⟩ := bind_ok h
    obtain ⟨_, h13, h⟩ := bind_ok h
    obtain ⟨_, -, h⟩ := bind_ok h
    obtain ⟨_, h14, h⟩ := bind_ok h
    obtain ⟨_, h15, h⟩ := bind_ok h
    rw [pure_apply] at h
    cases h
    obtain ⟨h5, h6, h7, h8, h9, h10⟩ := initialize_logging_ok hl
    exact ⟨rfl, rfl, ⟨call_ok h1, call_ok h2, call_ok h3, call_ok h4, h5, h6, h7, h8, h9, h10,
      call_ok h11, call_ok h12, call_ok h13, call_ok h14, call_ok h15⟩⟩


theorem main_try_returns (env : Env) (hres : env.initialize_result = true)
    (h : StartupReturns env) (w : World) :
    main_try env w =
      ({ trace := w.trace ++ [.call .app_path, .call .set_default_data_dir,
            .call .set_default_config_dir, .call .initialize_app,
            .call .get_logging_conf, .call .fc_exists] ++
            (if env.config_exists then [.call .fc_configure_logging] else []) ++
            env.appenders.map appenderEvent ++
            [.call .signal_set, .call .async_wait,
             .call .version_string,
             .ilog "fill-postgresql version ${ver}" (.value_of .version_string),
             .call .full_config_file_path,
             .ilog "fill-postgresql using configuration file ${c}"
               (.value_of .full_config_file_path),
             .call .data_dir,
             .ilog "fill-postgresql data directory is ${d}" (.value_of .data_dir),
             .call .startup, .call .exec],
         watches := w.watches + 1 }, .ok none) := by
  simp [main_try, bind_apply, pure_apply, call_returns h.app_path,
    call_returns h.set_default_data_dir, call_returns h.set_default_config_dir,
    call_returns h.initialize_app, hres,
    initialize_logging_returns env h.get_logging_conf h.fc_exists h.fc_configure_logging
      h.appenders h.signal_set h.async_wait,
    call_returns h.version_string, call_returns h.full_config_file_path,
    call_returns h.data_dir, call_returns h.startup, call_returns h.exec, ilog, emit]

theorem keeps_pure (P : Event → Bool) {α : Type} (a : α) : Keeps P (pure a : Prog α) :=
  fun _ => rfl

theorem keeps_bind {P : Event → Bool} {α β : Type} {p : Prog α} {k : α → Prog β}
    (hp : Keeps P p) (hk : ∀ a, Keeps P (k a)) : Keeps P (p >>= k) := by
  intro w
  rw [bind_apply]
  have h1 := hp w
  rcases hp1 : p w with ⟨w1, r⟩
  rw [hp1] at h1
  cases r with
  | ok a => simpa [h1] using hk a w1
  | thrown f => simpa using h1

theorem keeps_call {P : Event → Bool} (env : Env) {c : Call} (hP : P (.call c) = false) :
    Keeps P (call env c) := by
  intro w
  cases h : env.faultAt c <;> simp [call, h, emit, List.countP_append, hP]

theorem keeps_ilog {P : Event → Bool} {format : String} {arg : LogArg}
    (hP : P (.ilog format arg) = false) : Keeps P (ilog format arg) := by
  intro w
  simp [ilog, emit, List.countP_append, hP]

theorem keeps_arm (P : Event → Bool) : Keeps P arm := fun _ => rfl

theorem keeps_initialize_appenders {P : Event → Bool} (env : Env) (names : List String)
    (hP : ∀ n, P (.call (.initialize_appender n)) = false) :
    Keeps P (initialize_appenders env names) := by
  induction names with
  | nil => exact keeps_pure P ()
  | cons n rest ih => exact keeps_bind (keeps_call env (hP n)) (fun _ => ih)

theorem keeps_logging_conf_loop {P : Event → Bool} (env : Env)
    (h1 : P (.call .signal_set) = false) (h2 : P (.call .async_wait) = false) :
    Keeps P (logging_conf_loop env) :=
  keeps_bind (keeps_call env h1) fun _ => keeps_bind (keeps_call env h2) fun _ => keeps_arm P

theorem noElog_initialize_logging (env : Env) : Keeps Event.isElog (initialize_logging env) := by
  simp only [initialize_logging]
  refine keeps_bind (keeps_call env rfl) fun _ => keeps_bind (keeps_call env rfl) fun _ => ?_
  split
  · exact keeps_bind (keeps_call env rfl) fun _ =>
      keeps_bind (keeps_initialize_appenders env _ fun _ => rfl) fun _ =>
      keeps_logging_conf_loop env rfl rfl
  · exact keeps_bind (keeps_pure _ _) fun _ =>
      keeps_bind (keeps_initialize_appenders env _ fun _ => rfl) fun _ =>
      keeps_logging_conf_loop env rfl rfl

/-- The try block of `main` writes no error record, however it ends. -/
theorem noElog_main_try (env : Env) (w : World) :
    elogCount (main_try env w).1.trace = elogCount w.trace := by
  have h : Keeps Event.isElog (main_try env) := by
    simp only [main_try]
    refine keeps_bind (keeps_call env rfl) fun _ => keeps_bind (keeps_call env rfl) fun _ =>
      keeps_bind (keeps_call env rfl) fun _ => keeps_bind (keeps_call env rfl) fun _ => ?_
    split
    · exact keeps_pure _ _
    · exact keeps_bind (keeps_pure _ _) fun _ =>
        keeps_bind (noElog_initialize_logging env) fun _ =>
        keeps_bind (keeps_call env rfl) fun _ => keeps_bind (keeps_ilog rfl) fun _ =>
        keeps_bind (keeps_call env rfl) fun _ => keeps_bind (keeps_ilog rfl) fun _ =>
        keeps_bind (keeps_call env rfl) fun _ => keeps_bind (keeps_ilog rfl) fun _ =>
        keeps_bind (keeps_call env rfl) fun _ => keeps_bind (keeps_call env rfl) fun _ =>
        keeps_pure _ _
  exact h w

/-- The exit code and the error records of `main`, by the way its try block ended. -/
theorem main_cases (env : Env) (w : World) :
    ((main env w).2 = .ok 0 ∧ elogCount (main env w).1.trace = elogCount w.trace ∧
      (main_try env w).2 = .ok none) ∨
    ((main env w).2 = .ok (-1) ∧ elogCount (main env w).1.trace = elogCount w.trace ∧
      (main_try env w).2 = .ok (some .INITIALIZE_FAIL)) ∨
    (∃ f, (main_try env w).2 = .thrown f ∧
      (main env w).2 = .ok (if f.is_fc_exception = false ∧ f.is_interprocess_bad_alloc = true
        then 1 else -2) ∧
      elogCount (main env w).1.trace = elogCount w.trace + 1) := by
  have hno := noElog_main_try env w
  rcases ht : main_try env w with ⟨w1, r⟩
  rw [ht] at hno
  cases r with
  | ok r =>
    have hr := @main_try_ok env w r (by rw [ht])
    rcases hr with ⟨rfl, -⟩ | ⟨rfl, -, -⟩
    · right; left
      rw [main_of_return ht]
      exact ⟨rfl, hno, rfl⟩
    · left
      rw [main_of_fallthrough ht]
      exact ⟨rfl, hno, rfl⟩
  | thrown f =>
    right; right
    obtain ⟨e, he, hc⟩ := main_catch_spec f w1
    refine ⟨f, rfl, ?_, ?_⟩
    · rw [main_of_thrown ht, hc]
      by_cases hb : f.is_fc_exception = false ∧ f.is_interprocess_bad_alloc = true <;>
        simp [hb, return_codes.toInt]
    · rw [main_of_thrown ht, hc]
      simp only [emit, elogCount_append]
      simp [elogCount, he] at hno ⊢
      exact hno

/-- `detail::configure_logging` always returns; besides the call itself it
leaves only error records behind. -/
theorem configure_logging_returns (env : Env) (w : World) :
    ∃ evs, (∀ e ∈ evs, Event.isElog e = true) ∧
      detail.configure_logging env w =
        ({ w with trace := w.trace ++ .call .fc_configure_logging :: evs }, .ok ()) := by
  cases hc : env.faultAt .fc_configure_logging with
  | none =>
    exact ⟨[], by simp, by simp [detail.configure_logging, tryCatch, call_returns hc, emit]⟩
  | some f =>
    rcases f with ⟨a, b, c, d, e⟩
    cases a <;> cases c <;> cases e <;>
      simp [detail.configure_logging, tryCatch, bind_apply, pure_apply, call_throws hc, elog,
        throwFault, emit, Event.isElog]

theorem callsOf_of_all_elog (evs : List Event) (h : ∀ e ∈ evs, Event.isElog e = true) :
    callsOf evs = [] := by
  induction evs with
  | nil => rfl
  | cons e t ih =>
    have he := h e (List.mem_cons_self e t)
    have ht := ih (fun x hx => h x (List.mem_cons_of_mem e hx))
    cases e with
    | elog fmt arg => simpa [callsOf] using ht
    | call c => cases he
    | ilog fmt arg => cases he

theorem count_hupNotice_of_all_elog (evs : List Event)
    (h : ∀ e ∈ evs, Event.isElog e = true) : evs.count hupNotice = 0 := by
  rw [List.count_eq_zero]
  intro hmem
  have := h _ hmem
  cases this

theorem count_hupNotice_map_appenderEvent (names : List String) :
    (names.map appenderEvent).count hupNotice = 0 := by
  rw [List.count_eq_zero]
  intro hmem
  obtain ⟨n, -, hn⟩ := List.mem_map.mp hmem
  cases hn

/-- One handler run for a delivered signal, when the collaborators other than
`fc::configure_logging` return. -/
theorem on_signal_returns (env : Env) (h : ReloadReturns env) (w : World) :
    ∃ evs, (∀ e ∈ evs, Event.isElog e = true) ∧
      (env.config_exists = false → evs = []) ∧
      on_signal env 0 w =
        ({ trace := w.trace ++ [hupNotice, .call .get_logging_conf, .call .fc_exists] ++
              (if env.config_exists then .call .fc_configure_logging :: evs else []) ++
              env.appenders.map appenderEvent ++ [.call .signal_set, .call .async_wait],
           watches := w.watches + 1 }, .ok ()) := by
  cases hex : env.config_exists with
  | false =>
    refine ⟨[], by simp, fun _ => rfl, ?_⟩
    simp [on_signal, bind_apply, pure_apply, ilog, call_returns h.get_logging_conf,
      call_returns h.fc_exists, hex, initialize_appenders_returns env _ h.appenders,
      logging_conf_loop_returns env h.signal_set h.async_wait, emit, hupNotice]
  | true =>
    obtain ⟨evs, hevs, hcfg⟩ := configure_logging_returns env
      { w with trace := w.trace ++ [hupNotice, .call .get_logging_conf, .call .fc_exists] }
    refine ⟨evs, hevs, fun hc => absurd hc (by decide), ?_⟩
    simp [on_signal, bind_apply, pure_apply, ilog, call_returns h.get_logging_conf,
      call_returns h.fc_exists, hex, initialize_appenders_returns env _ h.appenders,
      logging_conf_loop_returns env h.signal_set h.async_wait, emit]
    simp [hupNotice, emit] at hcfg
    simp [hcfg, hupNotice]

/-- What one handler run for a delivered signal adds, in summary. -/
theorem on_signal_summary (env : Env) (h : ReloadReturns env) (w : World) :
    (on_signal env 0 w).2 = .ok () ∧
    (on_signal env 0 w).1.watches = w.watches + 1 ∧
    callsOf (on_signal env 0 w).1.trace = callsOf w.trace ++
      ([.get_logging_conf, .fc_exists] ++
        (if env.config_exists then [.fc_configure_logging] else []) ++
        env.appenders.map Call.initialize_appender ++ [.signal_set, .async_wait]) ∧
    (on_signal env 0 w).1.trace.count hupNotice = w.trace.count hupNotice + 1 := by
  obtain ⟨evs, hevs, -, hrun⟩ := on_signal_returns env h w
  rw [hrun]
  refine ⟨rfl, rfl, ?_, ?_⟩
  · cases hex : env.config_exists <;>
      simp [callsOf_append, callsOf, callsOf_map_appenderEvent, hupNotice,
        callsOf_of_all_elog evs hevs]
  · have h1 := count_hupNotice_map_appenderEvent env.appenders
    have h2 := count_hupNotice_of_all_elog evs hevs
    have h3 : [hupNotice, Event.call .get_logging_conf, Event.call .fc_exists].count hupNotice
        = 1 := by decide
    have h4 : [Event.call .signal_set, Event.call .async_wait].count hupNotice = 0 := by decide
    have h5 : (Event.call .fc_configure_logging :: evs).count hupNotice = 0 := by
      rw [List.count_cons, h2]; decide
    cases hex : env.config_exists <;>
      simp only [List.count_append, h1, h3, h4, h5, if_true, if_false, Bool.false_eq_true,
        List.count_nil, Nat.add_zero]

theorem deliver_of_watch (env : Env) (err : Int) (w : World) (hw : w.watches = 1) :
    deliver env err w = on_signal env err { w with watches := 0 } := by
  simp [deliver, hw]

theorem initialize_logging_arms_one {env : Env} {w : World}
    (h : (initialize_logging env w).2 = .ok ()) :
    (initialize_logging env w).1.watches = w.watches + 1 := by
  obtain ⟨h5, h6, h7, h8, h9, h10⟩ := initialize_logging_ok h
  rw [initialize_logging_returns env h5 h6 h7 h8 h9 h10]

theorem count_async_wait_map_initialize_appender (names : List String) :
    (names.map Call.initialize_appender).count .async_wait = 0 := by
  rw [List.count_eq_zero]
  intro hmem
  obtain ⟨n, -, hn⟩ := List.mem_map.mp hmem
  cases hn

/-- A sequence of delivered signals, handled one after the other from a world
with one outstanding watch. -/
theorem run_deliveries_summary (ds : List (Env × Int)) (w : World) (hw : w.watches = 1)
    (h : ∀ d ∈ ds, d.2 = 0 ∧ ReloadReturns d.1) :
    (run_deliveries ds w).2 = .ok () ∧
    (run_deliveries ds w).1.watches = 1 ∧
    (run_deliveries ds w).1.trace.count hupNotice = w.trace.count hupNotice + ds.length ∧
    (callsOf (run_deliveries ds w).1.trace).count .async_wait =
      (callsOf w.trace).count .async_wait + ds.length ∧
    callsOf (run_deliveries ds w).1.trace = callsOf w.trace ++
      (ds.map (fun d => [Call.get_logging_conf, Call.fc_exists] ++
        (if d.1.config_exists then [Call.fc_configure_logging] else []) ++
        d.1.appenders.map Call.initialize_appender ++
        [Call.signal_set, Call.async_wait])).flatten := by
  induction ds generalizing w with
  | nil => simp [run_deliveries, pure_apply, hw]
  | cons d rest ih =>
    obtain ⟨herr, hret⟩ := h d (List.mem_cons_self d rest)
    have hrest : ∀ x ∈ rest, x.2 = 0 ∧ ReloadReturns x.1 :=
      fun x hx => h x (List.mem_cons_of_mem d hx)
    obtain ⟨hok, hwat, hcalls, hhup⟩ := on_signal_summary d.1 hret { w with watches := 0 }
    have hstep : deliver d.1 d.2 w = on_signal d.1 0 { w with watches := 0 } := by
      rw [herr]; exact deliver_of_watch d.1 0 w hw
    rcases hrun : on_signal d.1 0 { w with watches := 0 } with ⟨w1, r⟩
    rw [hrun] at hok hwat hcalls hhup
    simp only at hok hwat hcalls hhup
    subst hok
    have hw1 : w1.watches = 1 := by simpa using hwat
    obtain ⟨i1, i2, i3, i4, i5⟩ := ih w1 hw1 hrest
    have hdef : run_deliveries (d :: rest) w = run_deliveries rest w1 := by
      simp [run_deliveries, bind_apply, hstep, hrun]
    rw [hdef]
    refine ⟨i1, i2, ?_, ?_, ?_⟩
    · rw [i3, hhup, List.length_cons]; omega
    · rw [i4, hcalls, List.length_cons]
      cases hex : d.1.config_exists <;>
        simp [List.count_append, count_async_wait_map_initialize_appender, List.count_cons] <;>
        omega
    · rw [i5, hcalls]
      simp [List.append_assoc]

theorem count_map_initialize_appender (names : List String) (c : Call)
    (hc : ∀ n, c ≠ .initialize_appender n) :
    (names.map Call.initialize_appender).count c = 0 := by
  rw [List.count_eq_zero]
  intro hmem
  obtain ⟨n, -, hn⟩ := List.mem_map.mp hmem
  exact hc n hn.symm

/-- `logging_conf_loop` starts by building the signal set, whatever happens next. -/
theorem logging_conf_loop_calls (env : Env) (w : World) :
    ∃ tail, tail.count Call.signal_set = 0 ∧
      callsOf (logging_conf_loop env w).1.trace = callsOf w.trace ++ .signal_set :: tail := by
  cases h1 : env.faultAt .signal_set with
  | some f =>
    exact ⟨[], rfl, by simp [logging_conf_loop, bind_apply, call_throws h1, emit,
      callsOf_append, callsOf]⟩
  | none =>
    cases h2 : env.faultAt .async_wait with
    | some f =>
      exact ⟨[.async_wait], by decide, by simp [logging_conf_loop, bind_apply,
        call_returns h1, call_throws h2, emit, callsOf_append, callsOf]⟩
    | none =>
      exact ⟨[.async_wait], by decide, by simp [logging_conf_loop, bind_apply,
        call_returns h1, call_returns h2, emit, arm, callsOf_append, callsOf]⟩

/-- A handler run for a delivered signal reaches its call of `logging_conf_loop`
when the calls before it, other than `fc::configure_logging`, return. -/
theorem on_signal_reaches_rearm (env : Env) (h5 : env.faultAt .get_logging_conf = none)
    (h6 : env.faultAt .fc_exists = none)
    (h8 : ∀ n ∈ env.appenders, env.faultAt (.initialize_appender n) = none) (w : World) :
    ∃ evs, (∀ e ∈ evs, Event.isElog e = true) ∧
      on_signal env 0 w = logging_conf_loop env
        { w with trace := w.trace ++ [hupNotice, .call .get_logging_conf, .call .fc_exists] ++
            (if env.config_exists then .call .fc_configure_logging :: evs else []) ++
            env.appenders.map appenderEvent } := by
  cases hex : env.config_exists with
  | false =>
    refine ⟨[], by simp, ?_⟩
    simp [on_signal, bind_apply, pure_apply, ilog, call_returns h5, call_returns h6, hex,
      initialize_appenders_returns env _ h8, emit, hupNotice]
  | true =>
    obtain ⟨evs, hevs, hcfg⟩ := configure_logging_returns env
      { w with trace := w.trace ++ [hupNotice, .call .get_logging_conf, .call .fc_exists] }
    refine ⟨evs, hevs, ?_⟩
    simp [on_signal, bind_apply, pure_apply, ilog, call_returns h5, call_returns h6, hex,
      initialize_appenders_returns env _ h8, emit]
    simp [hupNotice, emit] at hcfg
    simp [hcfg, hupNotice]

theorem on_signal_rearm_count (env : Env) (h5 : env.faultAt .get_logging_conf = none)
    (h6 : env.faultAt .fc_exists = none)
    (h8 : ∀ n ∈ env.appenders, env.faultAt (.initialize_appender n) = none) (w : World) :
    (callsOf (on_signal env 0 w).1.trace).count .signal_set =
      (callsOf w.trace).count .signal_set + 1 := by
  obtain ⟨evs, hevs, hrun⟩ := on_signal_reaches_rearm env h5 h6 h8 w
  obtain ⟨tail, htail, hcalls⟩ := logging_conf_loop_calls env
    { w with trace := w.trace ++ [hupNotice, .call .get_logging_conf, .call .fc_exists] ++
        (if env.config_exists then .call .fc_configure_logging :: evs else []) ++
        env.appenders.map appenderEvent }
  rw [hrun, hcalls]
  have hm := count_map_initialize_appender env.appenders .signal_set (fun n hn => by cases hn)
  cases hex : env.config_exists <;>
    simp [callsOf_append, callsOf, callsOf_map_appenderEvent, hupNotice,
      callsOf_of_all_elog evs hevs, List.count_append, List.count_cons, hm, htail]

/-- A handler run for a delivered signal returns only when every collaborator
call other than `fc::configure_logging` returned. -/
theorem on_signal_ok {env : Env} {w : World} (h : (on_signal env 0 w).2 = .ok ()) :
    ReloadReturns env := by
  simp only [on_signal, if_true] at h
  obtain ⟨_, -, h⟩ := bind_ok h
  obtain ⟨_, h5, h⟩ := bind_ok h
  obtain ⟨_, h6, h⟩ := bind_ok h
  cases hex : env.config_exists with
  | false =>
    simp only [hex, Bool.false_eq_true, if_false] at h
    obtain ⟨_, -, h⟩ := bind_ok h
    obtain ⟨_, h8, h⟩ := bind_ok h
    simp only [logging_conf_loop] at h
    obtain ⟨_, h9, h⟩ := bind_ok h
    obtain ⟨_, h10, -⟩ := bind_ok h
    exact ⟨call_ok h5, call_ok h6, initialize_appenders_ok h8, call_ok h9, call_ok h10⟩
  | true =>
    simp only [hex, if_true] at h
    obtain ⟨_, -, h⟩ := bind_ok h
    obtain ⟨_, h8, h⟩ := bind_ok h
    simp only [logging_conf_loop] at h
    obtain ⟨_, h9, h⟩ := bind_ok h
    obtain ⟨_, h10, -⟩ := bind_ok h
    exact ⟨call_ok h5, call_ok h6, initialize_appenders_ok h8, call_ok h9, call_ok h10⟩

theorem count_signal_set_callsOf (t : List Event) :
    (callsOf t).count .signal_set = t.countP Event.isRearm := by
  induction t with
  | nil => rfl
  | cons e t ih =>
    cases e with
    | call c => cases c <;> simp [callsOf, Event.isRearm, List.count_cons, ih]
    | ilog fmt arg => simp [callsOf, Event.isRearm, ih]
    | elog fmt arg => simp [callsOf, Event.isRearm, ih]

theorem keeps_isRearm_configure_logging (env : Env) :
    Keeps Event.isRearm (detail.configure_logging env) := by
  intro w
  obtain ⟨evs, hevs, hrun⟩ := configure_logging_returns env w
  rw [hrun]
  have h0 : evs.countP Event.isRearm = 0 := by
    rw [List.countP_eq_zero]
    intro e he
    have := hevs e he
    cases e with
    | elog fmt arg => simp [Event.isRearm]
    | call c => cases this
    | ilog fmt arg => cases this
  simp [List.countP_append, List.countP_cons, h0, Event.isRearm]

theorem keeps_bind_of_throws {P : Event → Bool} {α β : Type} {p : Prog α} (k : α → Prog β)
    (hp : Keeps P p) (ht : ∀ w, ∃ f, (p w).2 = .thrown f) : Keeps P (p >>= k) := by
  intro w
  rw [bind_apply]
  have h1 := hp w
  obtain ⟨f, hf⟩ := ht w
  rcases hp1 : p w with ⟨w1, r⟩
  rw [hp1] at h1 hf
  cases r with
  | ok a => cases hf
  | thrown g => simpa using h1

theorem call_always_throws {env : Env} {c : Call} {f : Fault} (h : env.faultAt c = some f)
    (w : World) : ∃ g, (call env c w).2 = .thrown g :=
  ⟨f, by rw [call_throws h]⟩

theorem initialize_appenders_always_throws {env : Env} {names : List String}
    (h : ¬ ∀ n ∈ names, env.faultAt (.initialize_appender n) = none) (w : World) :
    ∃ f, (initialize_appenders env names w).2 = .thrown f := by
  rcases hr : (initialize_appenders env names w).2 with a | f
  · exact absurd (initialize_appenders_ok (w := w) hr) h
  · exact ⟨f, rfl⟩

/-- A handler run in which `get_logging_conf`, `fc::exists` or an appender
initialisation throws does not reach `logging_conf_loop`: it builds no signal
set. -/
theorem on_signal_no_rearm (env : Env) (w : World)
    (h : ¬ (env.faultAt .get_logging_conf = none ∧ env.faultAt .fc_exists = none ∧
      ∀ n ∈ env.appenders, env.faultAt (.initialize_appender n) = none)) :
    (on_signal env 0 w).1.trace.countP Event.isRearm = w.trace.countP Event.isRearm := by
  have hk : Keeps Event.isRearm (on_signal env 0) := by
    simp only [on_signal, if_true]
    refine keeps_bind (keeps_ilog rfl) fun _ => ?_
    cases h5 : env.faultAt .get_logging_conf with
    | some f => exact keeps_bind_of_throws _ (keeps_call env rfl) (call_always_throws h5)
    | none =>
      refine keeps_bind (keeps_call env rfl) fun _ => ?_
      cases h6 : env.faultAt .fc_exists with
      | some f => exact keeps_bind_of_throws _ (keeps_call env rfl) (call_always_throws h6)
      | none =>
        refine keeps_bind (keeps_call env rfl) fun _ => ?_
        have h8 : ¬ ∀ n ∈ env.appenders, env.faultAt (.initialize_appender n) = none :=
          fun h8 => h ⟨h5, h6, h8⟩
        split
        · exact keeps_bind (keeps_isRearm_configure_logging env) fun _ =>
            keeps_bind_of_throws _ (keeps_initialize_appenders env _ fun _ => rfl)
              (initialize_appenders_always_throws h8)
        · exact keeps_bind (keeps_pure _ _) fun _ =>
            keeps_bind_of_throws _ (keeps_initialize_appenders env _ fun _ => rfl)
              (initialize_appenders_always_throws h8)
  exact hk w

/-! ## Exit codes -/

/-- Claim C1.  Whatever exception leaves the try block of `main`, `main` returns
the code of the first catch clause, in source order, that the exception matches:
`BAD_ALLOC` exactly when that clause is the `boost::interprocess::bad_alloc`
one, `OTHER_FAIL` for each of the five others; each case also shows the log
record of the clause that ran.  The enumerators have the values 0, -1, -2, 1. -/
theorem main_returns_code_of_first_matching_handler (env : Env) (w w1 : World) (f : Fault)
    (h : main_try env w = (w1, .thrown f)) :
    (f.is_fc_exception = true →
      main env w = (emit (.elog "${e}" (.to_detail_string f)) w1,
        .ok return_codes.OTHER_FAIL.toInt)) ∧
    (f.is_fc_exception = false → f.is_interprocess_bad_alloc = true →
      main env w = (emit (.elog "bad alloc" .none) w1, .ok return_codes.BAD_ALLOC.toInt)) ∧
    (f.is_fc_exception = false → f.is_interprocess_bad_alloc = false →
      f.is_boost_exception = true →
      main env w = (emit (.elog "${e}" (.diagnostic_information f)) w1,
        .ok return_codes.OTHER_FAIL.toInt)) ∧
    (f.is_fc_exception = false → f.is_interprocess_bad_alloc = false →
      f.is_boost_exception = false → f.is_runtime_error = true →
      main env w = (emit (.elog "${e}" (.what f)) w1, .ok return_codes.OTHER_FAIL.toInt)) ∧
    (f.is_fc_exception = false → f.is_interprocess_bad_alloc = false →
      f.is_boost_exception = false → f.is_runtime_error = false →
      f.is_std_exception = true →
      main env w = (emit (.elog "${e}" (.what f)) w1, .ok return_codes.OTHER_FAIL.toInt)) ∧
    (f.is_fc_exception = false → f.is_interprocess_bad_alloc = false →
      f.is_boost_exception = false → f.is_runtime_error = false →
      f.is_std_exception = false →
      main env w = (emit (.elog "unknown exception" .none) w1,
        .ok return_codes.OTHER_FAIL.toInt)) ∧
    ((main env w).2 = .ok return_codes.BAD_ALLOC.toInt ↔
      (f.is_fc_exception = false ∧ f.is_interprocess_bad_alloc = true)) ∧
    ((main env w).2 = .ok return_codes.BAD_ALLOC.toInt ∨
      (main env w).2 = .ok return_codes.OTHER_FAIL.toInt) ∧
    return_codes.SUCCESS.toInt = 0 ∧ return_codes.INITIALIZE_FAIL.toInt = -1 ∧
    return_codes.OTHER_FAIL.toInt = -2 ∧ return_codes.BAD_ALLOC.toInt = 1 := by
  have hm : main env w =
      match main_catch f w1 with
      | (w2, .ok code) => (w2, .ok code.toInt)
      | (w2, .thrown g) => (w2, .thrown g) := by
    simp [main, tryCatch, bind_apply, h]
  rcases f with ⟨a, b, c, d, e⟩
  cases a <;> cases b <;> cases c <;> cases d <;> cases e <;>
    simp [hm, main_catch, bind_apply, pure_apply, elog, return_codes.toInt]

/-- Instance of claim C1: `app().exec()` throws `boost::interprocess::bad_alloc`;
the second catch clause is the first match and `main` returns 1. -/
theorem main_returns_code_of_first_matching_handler_witness :
    main (failingAt .exec interprocessBadAlloc) World.start =
      (emit (.elog "bad alloc" .none) (main_try (failingAt .exec interprocessBadAlloc)
        World.start).1, .ok 1) :=
  (main_returns_code_of_first_matching_handler (failingAt .exec interprocessBadAlloc)
    World.start (main_try (failingAt .exec interprocessBadAlloc) World.start).1
    interprocessBadAlloc (by decide)).2.1 rfl rfl

/-! ## The start-up sequence -/

/-- Claim C2.  When the calls up to and including `app().initialize` return and
`initialize` answers `false`, the try block of `main` ends in its
`return INITIALIZE_FAIL` and `main` returns -1 right there: the only events of
the run are the four calls of lines 78-81, so `initialize_logging` (whose first
step is `get_logging_conf`), appender initialisation, the signal watch,
`startup` and `exec` are never reached, no catch clause runs (no error record),
and no watch is registered. -/
theorem main_initialize_false_returns_INITIALIZE_FAIL (env : Env) (w : World)
    (h1 : env.faultAt .app_path = none) (h2 : env.faultAt .set_default_data_dir = none)
    (h3 : env.faultAt .set_default_config_dir = none)
    (h4 : env.faultAt .initialize_app = none) (hres : env.initialize_result = false) :
    main_try env w =
      ({ w with trace := w.trace ++ [.call .app_path, .call .set_default_data_dir,
          .call .set_default_config_dir, .call .initialize_app] },
        .ok (some .INITIALIZE_FAIL)) ∧
    main env w =
      ({ w with trace := w.trace ++ [.call .app_path, .call .set_default_data_dir,
          .call .set_default_config_dir, .call .initialize_app] }, .ok (-1)) ∧
    return_codes.INITIALIZE_FAIL.toInt = -1 ∧
    callsOf (main env w).1.trace = callsOf w.trace ++
      [.app_path, .set_default_data_dir, .set_default_config_dir, .initialize_app] ∧
    elogCount (main env w).1.trace = elogCount w.trace ∧
    (main env w).1.watches = w.watches := by
  have ht : main_try env w =
      ({ w with trace := w.trace ++ [.call .app_path, .call .set_default_data_dir,
          .call .set_default_config_dir, .call .initialize_app] },
        .ok (some .INITIALIZE_FAIL)) := by
    simp [main_try, bind_apply, pure_apply, call_returns h1, call_returns h2,
      call_returns h3, call_returns h4, hres, emit]
  have hm : main env w =
      ({ w with trace := w.trace ++ [.call .app_path, .call .set_default_data_dir,
          .call .set_default_config_dir, .call .initialize_app] }, .ok (-1)) := by
    simp [main, tryCatch, bind_apply, pure_apply, ht, return_codes.toInt]
  refine ⟨ht, hm, rfl, ?_, ?_, ?_⟩
  · simp [hm, callsOf_append, callsOf]
  · simp [hm, elogCount_append, elogCount, Event.isElog]
  · simp [hm]

/-- Instance of claim C2 at `refusingApp`, started from the initial world. -/
theorem main_initialize_false_returns_INITIALIZE_FAIL_witness :
    main refusingApp World.start =
      ({ trace := [.call .app_path, .call .set_default_data_dir,
          .call .set_default_config_dir, .call .initialize_app], watches := 0 }, .ok (-1)) :=
  (main_initialize_false_returns_INITIALIZE_FAIL refusingApp World.start rfl rfl rfl rfl rfl).2.1

/-- Claim C3.  At start-up, when the configuration path exists and
`fc::configure_logging` throws `f`, `initialize_logging` ends with that very
exception (it is not swallowed), the exception leaves the try block of `main`,
and `main` returns `BAD_ALLOC` when `f` is the interprocess allocation fault and
not an `fc::exception`, `OTHER_FAIL` otherwise.  The calls of the run stop at
`fc::configure_logging`: no appender is initialised, no signal set is built, no
wait is registered (the watch count is unchanged), `startup` and `exec` are not
called. -/
theorem startup_configure_fault_is_fatal (env : Env) (w : World) (f : Fault)
    (h1 : env.faultAt .app_path = none) (h2 : env.faultAt .set_default_data_dir = none)
    (h3 : env.faultAt .set_default_config_dir = none)
    (h4 : env.faultAt .initialize_app = none) (hres : env.initialize_result = true)
    (h5 : env.faultAt .get_logging_conf = none) (h6 : env.faultAt .fc_exists = none)
    (hex : env.config_exists = true) (hf : env.faultAt .fc_configure_logging = some f) :
    (∀ w0, initialize_logging env w0 =
      ({ w0 with trace := w0.trace ++ [.call .get_logging_conf, .call .fc_exists,
          .call .fc_configure_logging] }, .thrown f)) ∧
    main_try env w =
      ({ w with trace := w.trace ++ [.call .app_path, .call .set_default_data_dir,
          .call .set_default_config_dir, .call .initialize_app, .call .get_logging_conf,
          .call .fc_exists, .call .fc_configure_logging] }, .thrown f) ∧
    (main env w).2 = .ok (if f.is_fc_exception = false ∧ f.is_interprocess_bad_alloc = true
      then return_codes.BAD_ALLOC.toInt else return_codes.OTHER_FAIL.toInt) ∧
    callsOf (main env w).1.trace = callsOf w.trace ++
      [.app_path, .set_default_data_dir, .set_default_config_dir, .initialize_app,
       .get_logging_conf, .fc_exists, .fc_configure_logging] ∧
    (main env w).1.watches = w.watches := by
  have hl : ∀ w0, initialize_logging env w0 =
      ({ w0 with trace := w0.trace ++ [.call .get_logging_conf, .call .fc_exists,
          .call .fc_configure_logging] }, .thrown f) := by
    intro w0
    simp [initialize_logging, bind_apply, call_returns h5, call_returns h6, call_throws hf,
      hex, emit]
  have ht : main_try env w =
      ({ w with trace := w.trace ++ [.call .app_path, .call .set_default_data_dir,
          .call .set_default_config_dir, .call .initialize_app, .call .get_logging_conf,
          .call .fc_exists, .call .fc_configure_logging] }, .thrown f) := by
    simp [main_try, bind_apply, pure_apply, call_returns h1, call_returns h2,
      call_returns h3, call_returns h4, hres, hl, emit]
  obtain ⟨e, he, hc⟩ := main_catch_spec f
    { w with trace := w.trace ++ [.call .app_path, .call .set_default_data_dir,
      .call .set_default_config_dir, .call .initialize_app, .call .get_logging_conf,
      .call .fc_exists, .call .fc_configure_logging] }
  have hm := main_of_thrown ht
  rw [hc] at hm
  refine ⟨hl, ht, ?_, ?_, ?_⟩
  · rw [hm]
    by_cases hb : f.is_fc_exception = false ∧ f.is_interprocess_bad_alloc = true <;> simp [hb]
  · rw [hm]
    cases e with
    | elog fmt arg => simp [emit, callsOf_append, callsOf]
    | call c => cases he
    | ilog fmt arg => cases he
  · rw [hm]
    rfl

/-- Instance of claim C3: the start-up load throws a `std::runtime_error`. -/
theorem startup_configure_fault_is_fatal_witness :
    main (failingAt .fc_configure_logging runtimeError) World.start =
      ({ trace := [.call .app_path, .call .set_default_data_dir,
          .call .set_default_config_dir, .call .initialize_app, .call .get_logging_conf,
          .call .fc_exists, .call .fc_configure_logging,
          .elog "${e}" (.what runtimeError)], watches := 0 }, .ok (-2)) ∧
    (main (failingAt .fc_configure_logging runtimeError) World.start).2 = .ok (-2) :=
  ⟨by decide,
   (startup_configure_fault_is_fatal (failingAt .fc_configure_logging runtimeError) World.start
    runtimeError rfl rfl rfl rfl rfl rfl rfl rfl rfl).2.2.1⟩

/-- Claim C10.  When `initialize` answers `true` and every call of the start-up
sequence returns, `main` performs, in this order, the four calls of lines
78-81, `initialize_logging` (configuration path, existence test, the load when
the file exists, every appender, the signal watch), the three informational
records each preceded by the accessor it prints, `startup` and `exec`; it
writes no error record and returns `SUCCESS`, which is 0.  Conversely, whenever
`main` returns `SUCCESS` the try block ran to its end without an exception,
`initialize` had answered `true`, and every call of the sequence returned. -/
theorem main_success_iff_startup_completes (env : Env) (w : World) :
    (env.initialize_result = true → StartupReturns env →
      initialize_logging env
          { w with trace := w.trace ++ [.call .app_path, .call .set_default_data_dir,
            .call .set_default_config_dir, .call .initialize_app] } =
        ({ trace := w.trace ++ [.call .app_path, .call .set_default_data_dir,
              .call .set_default_config_dir, .call .initialize_app] ++
              [.call .get_logging_conf, .call .fc_exists] ++
              (if env.config_exists then [.call .fc_configure_logging] else []) ++
              env.appenders.map appenderEvent ++ [.call .signal_set, .call .async_wait],
           watches := w.watches + 1 }, .ok ()) ∧
      main env w =
        ({ trace := w.trace ++ [.call .app_path, .call .set_default_data_dir,
              .call .set_default_config_dir, .call .initialize_app,
              .call .get_logging_conf, .call .fc_exists] ++
              (if env.config_exists then [.call .fc_configure_logging] else []) ++
              env.appenders.map appenderEvent ++
              [.call .signal_set, .call .async_wait,
               .call .version_string,
               .ilog "fill-postgresql version ${ver}" (.value_of .version_string),
               .call .full_config_file_path,
               .ilog "fill-postgresql using configuration file ${c}"
                 (.value_of .full_config_file_path),
               .call .data_dir,
               .ilog "fill-postgresql data directory is ${d}" (.value_of .data_dir),
               .call .startup, .call .exec],
           watches := w.watches + 1 }, .ok return_codes.SUCCESS.toInt) ∧
      elogCount (main env w).1.trace = elogCount w.trace ∧
      return_codes.SUCCESS.toInt = 0) ∧
    ((main env w).2 = .ok return_codes.SUCCESS.toInt →
      (main_try env w).2 = .ok none ∧ env.initialize_result = true ∧ StartupReturns env) := by
  constructor
  · intro hres h
    have hm := main_of_fallthrough (main_try_returns env hres h w)
    refine ⟨?_, hm, ?_, rfl⟩
    · rw [initialize_logging_returns env h.get_logging_conf h.fc_exists h.fc_configure_logging
        h.appenders h.signal_set h.async_wait]
    · rcases main_cases env w with ⟨-, hc, -⟩ | ⟨h1, -, -⟩ | ⟨f, h1, -, -⟩
      · exact hc
      · rw [hm] at h1; cases h1
      · rw [main_try_returns env hres h w] at h1; cases h1
  · intro h0
    rcases main_cases env w with ⟨-, -, ht⟩ | ⟨h1, -, -⟩ | ⟨f, -, h1, -⟩
    · rcases main_try_ok ht with ⟨hr, -⟩ | ⟨-, hres, hs⟩
      · cases hr
      · exact ⟨ht, hres, hs⟩
    · rw [h1] at h0; cases h0
    · rw [h1] at h0
      by_cases hb : f.is_fc_exception = false ∧ f.is_interprocess_bad_alloc = true <;>
        simp [hb, return_codes.toInt] at h0

/-- Instance of claim C10 at `quietEnv`: the complete run, returning 0. -/
theorem main_success_iff_startup_completes_witness :
    main quietEnv World.start =
      ({ trace := [.call .app_path, .call .set_default_data_dir,
            .call .set_default_config_dir, .call .initialize_app,
            .call .get_logging_conf, .call .fc_exists, .call .fc_configure_logging,
            .call (.initialize_appender "stderr"), .call (.initialize_appender "net"),
            .call .signal_set, .call .async_wait,
            .call .version_string,
            .ilog "fill-postgresql version ${ver}" (.value_of .version_string),
            .call .full_config_file_path,
            .ilog "fill-postgresql using configuration file ${c}"
              (.value_of .full_config_file_path),
            .call .data_dir,
            .ilog "fill-postgresql data directory is ${d}" (.value_of .data_dir),
            .call .startup, .call .exec],
         watches := 1 }, .ok 0) ∧
    StartupReturns quietEnv :=
  ⟨((main_success_iff_startup_completes quietEnv World.start).1 rfl
      ⟨rfl, rfl, rfl, rfl, rfl, rfl, fun _ => rfl, fun _ _ => rfl, rfl, rfl, rfl, rfl, rfl,
        rfl, rfl⟩).2.1,
   ((main_success_iff_startup_completes quietEnv World.start).2 (by decide)).2.2⟩

/-! ## Error records -/

/-- Claim C7, as amended.  A run of `main` that returns `OTHER_FAIL` or
`BAD_ALLOC` writes exactly one error record (that of the catch clause that
ran); a run that returns `INITIALIZE_FAIL` or `SUCCESS` writes none. -/
theorem main_error_records_by_exit_code (env : Env) (w : World) :
    ((main env w).2 = .ok return_codes.OTHER_FAIL.toInt ∨
      (main env w).2 = .ok return_codes.BAD_ALLOC.toInt →
        elogCount (main env w).1.trace = elogCount w.trace + 1) ∧
    ((main env w).2 = .ok return_codes.INITIALIZE_FAIL.toInt →
        elogCount (main env w).1.trace = elogCount w.trace) ∧
    ((main env w).2 = .ok return_codes.SUCCESS.toInt →
        elogCount (main env w).1.trace = elogCount w.trace) ∧
    ((main env w).2 = .ok return_codes.OTHER_FAIL.toInt ∨
      (main env w).2 = .ok return_codes.BAD_ALLOC.toInt ∨
      (main env w).2 = .ok return_codes.INITIALIZE_FAIL.toInt ∨
      (main env w).2 = .ok return_codes.SUCCESS.toInt) := by
  rcases main_cases env w with ⟨h1, hc, -⟩ | ⟨h1, hc, -⟩ | ⟨f, -, h1, hc⟩
  · simp [h1, hc, return_codes.toInt]
  · simp [h1, hc, return_codes.toInt]
  · by_cases hb : f.is_fc_exception = false ∧ f.is_interprocess_bad_alloc = true <;>
      simp [h1, hc, hb, return_codes.toInt]

/-- Instance of claim C7 as amended: one error record when `startup` throws, none
when `initialize` answers `false`. -/
theorem main_error_records_by_exit_code_witness :
    elogCount (main (failingAt .startup runtimeError) World.start).1.trace = 1 ∧
    elogCount (main refusingApp World.start).1.trace = 0 :=
  ⟨(main_error_records_by_exit_code (failingAt .startup runtimeError) World.start).1
      (Or.inl (by decide)),
   (main_error_records_by_exit_code refusingApp World.start).2.1 (by decide)⟩

/-- Claim C7 as stated fails: when `initialize` answers `false`, `main` returns the
non-SUCCESS code -1 and has written no error record, not one. -/
theorem main_initialize_fail_writes_no_error_record :
    (main refusingApp World.start).2 = .ok return_codes.INITIALIZE_FAIL.toInt ∧
    return_codes.INITIALIZE_FAIL.toInt ≠ return_codes.SUCCESS.toInt ∧
    elogCount (main refusingApp World.start).1.trace = 0 ∧
    elogCount (main refusingApp World.start).1.trace ≠ elogCount World.start.trace + 1 := by
  decide

/-- Claim C6, as amended.  When `fc::configure_logging` throws `f` inside
`detail::configure_logging`, the function returns and has written two error
records if `f` is an `fc::exception`, a `boost::exception` or a
`std::exception` (the fixed line, then the description of `f`), and one error
record (the fixed line alone) for any other thrown object. -/
theorem reload_fault_error_records (env : Env) (w : World) (f : Fault)
    (hf : env.faultAt .fc_configure_logging = some f) :
    (detail.configure_logging env w).2 = .ok () ∧
    elogCount (detail.configure_logging env w).1.trace = elogCount w.trace +
      (if f.is_fc_exception = true ∨ f.is_boost_exception = true ∨ f.is_std_exception = true
        then 2 else 1) ∧
    (detail.configure_logging env w).1.trace.take (w.trace.length + 2) =
      w.trace ++ [.call .fc_configure_logging, .elog "Error reloading logging.json" .none] := by
  rcases f with ⟨a, b, c, d, e⟩
  cases a <;> cases c <;> cases e <;>
    simp [detail.configure_logging, tryCatch, bind_apply, pure_apply, call_throws hf, elog,
      throwFault, emit, elogCount_append, elogCount, Event.isElog, List.take_append_eq_append_take]

/-- Instance of claim C6 as amended: two records for a `std::runtime_error`. -/
theorem reload_fault_error_records_witness :
    elogCount (detail.configure_logging (failingAt .fc_configure_logging runtimeError)
      World.start).1.trace = 0 + 2 :=
  (reload_fault_error_records (failingAt .fc_configure_logging runtimeError) World.start
    runtimeError rfl).2.1

/-- Claim C6 as stated fails: a reload in which `fc::configure_logging` throws a
`std::runtime_error` is recovered with two error records, not one. -/
theorem reload_runtime_error_writes_two_error_records :
    (failingAt .fc_configure_logging runtimeError).faultAt .fc_configure_logging =
      some runtimeError ∧
    (detail.configure_logging (failingAt .fc_configure_logging runtimeError)
      World.start) =
      ({ trace := [.call .fc_configure_logging, .elog "Error reloading logging.json" .none,
          .elog "${e}" (.what runtimeError)], watches := 0 }, .ok ()) ∧
    elogCount (detail.configure_logging (failingAt .fc_configure_logging runtimeError)
      World.start).1.trace = 2 := by
  decide

/-! ## The reload loop -/

/-- Claim C5, as amended.  Once `initialize_logging` has returned from a world
without a watch, exactly one watch is outstanding.  From a world with one
outstanding watch, any number of delivered signals (error code 0) whose handler
run returns is handled completely: the loop returns, the reload notice has been
written once per delivery, each delivery made the calls of one iteration (path,
existence test, the load when the file exists, every appender, a new signal set
and wait), `async_wait` was called once per delivery, and exactly one watch is
outstanding at the end.  A handler run for a delivered signal returns exactly
when its collaborator calls other than `fc::configure_logging` return, which is
how the condition is stated. -/
theorem reload_loop_keeps_one_watch (ds : List (Env × Int)) (w : World)
    (hw : w.watches = 1) (h : ∀ d ∈ ds, d.2 = 0 ∧ ReloadReturns d.1) :
    (∀ env w0, w0.watches = 0 → (initialize_logging env w0).2 = .ok () →
      (initialize_logging env w0).1.watches = 1) ∧
    (run_deliveries ds w).2 = .ok () ∧
    (run_deliveries ds w).1.watches = 1 ∧
    (run_deliveries ds w).1.trace.count hupNotice = w.trace.count hupNotice + ds.length ∧
    (callsOf (run_deliveries ds w).1.trace).count .async_wait =
      (callsOf w.trace).count .async_wait + ds.length ∧
    callsOf (run_deliveries ds w).1.trace = callsOf w.trace ++
      (ds.map (fun d => [Call.get_logging_conf, Call.fc_exists] ++
        (if d.1.config_exists then [Call.fc_configure_logging] else []) ++
        d.1.appenders.map Call.initialize_appender ++
        [Call.signal_set, Call.async_wait])).flatten ∧
    (∀ env w0, (on_signal env 0 w0).2 = .ok () ↔ ReloadReturns env) := by
  obtain ⟨r1, r2, r3, r4, r5⟩ := run_deliveries_summary ds w hw h
  refine ⟨fun env w0 h0 hret => ?_, r1, r2, r3, r4, r5, fun env w0 => ?_⟩
  · rw [initialize_logging_arms_one hret, h0]
  · exact ⟨on_signal_ok, fun hr => (on_signal_summary env hr w0).1⟩

/-- Instance of claim C5: three signals after start-up, the second reload
failing and the third finding no configuration file. -/
theorem reload_loop_keeps_one_watch_witness :
    (run_deliveries [(quietEnv, 0), (failingAt .fc_configure_logging runtimeError, 0),
      (noConfigFile, 0)] (initialize_logging quietEnv World.start).1).1.watches = 1 ∧
    (run_deliveries [(quietEnv, 0), (failingAt .fc_configure_logging runtimeError, 0),
      (noConfigFile, 0)] (initialize_logging quietEnv World.start).1).1.trace.count hupNotice
      = 0 + 3 :=
  ⟨(reload_loop_keeps_one_watch [(quietEnv, 0),
      (failingAt .fc_configure_logging runtimeError, 0), (noConfigFile, 0)]
      (initialize_logging quietEnv World.start).1 rfl (by
        intro d hd
        simp only [List.mem_cons, List.mem_singleton, List.not_mem_nil, or_false] at hd
        rcases hd with rfl | rfl | rfl <;>
          exact ⟨rfl, ⟨rfl, rfl, by decide, rfl, rfl⟩⟩)).2.2.1,
   (reload_loop_keeps_one_watch [(quietEnv, 0),
      (failingAt .fc_configure_logging runtimeError, 0), (noConfigFile, 0)]
      (initialize_logging quietEnv World.start).1 rfl (by
        intro d hd
        simp only [List.mem_cons, List.mem_singleton, List.not_mem_nil, or_false] at hd
        rcases hd with rfl | rfl | rfl <;>
          exact ⟨rfl, ⟨rfl, rfl, by decide, rfl, rfl⟩⟩)).2.2.2.1⟩

/-- Claim C5 as stated fails: after start-up one watch is outstanding; a signal is
delivered without error, the initialisation of the appender `stderr` throws,
and the handler is left by that exception before `logging_conf_loop`: no watch
is outstanding afterwards, and of two deliveries only the first runs. -/
theorem delivery_with_failing_appender_leaves_no_watch :
    (initialize_logging quietEnv World.start).1.watches = 1 ∧
    (deliver brokenAppender 0 (initialize_logging quietEnv World.start).1).2 =
      .thrown runtimeError ∧
    (deliver brokenAppender 0 (initialize_logging quietEnv World.start).1).1.watches = 0 ∧
    (run_deliveries [(brokenAppender, 0), (quietEnv, 0)]
      (initialize_logging quietEnv World.start).1).1.watches = 0 ∧
    (run_deliveries [(brokenAppender, 0), (quietEnv, 0)]
      (initialize_logging quietEnv World.start).1).1.trace.count hupNotice = 1 := by
  decide

/-- Claim C9, as amended.  A handler run whose wait completed with a non-zero
error code does nothing at all: the world is unchanged (no record, no call, no
new wait) and the handler returns; the watch that completed is gone, so none is
outstanding.  Among the runs in which `get_logging_conf`, `fc::exists` and
every appender initialisation return (`fc::configure_logging` may throw) it is
the only one that does not attempt to re-arm: such a run builds a new signal
set exactly when the error code is 0, and when all collaborators return the
watch count grows by one exactly when the error code is 0.  Over all runs: a
new signal set is built exactly when the error code is 0 and those calls
return, and a run that returns leaves the watch count as it was exactly when
the error code is not 0. -/
theorem cancelled_wait_ends_the_loop (env : Env) (err : Int) (w : World) :
    (err ≠ 0 → on_signal env err w = (w, .ok ())) ∧
    (err ≠ 0 → w.watches = 1 → deliver env err w = ({ w with watches := 0 }, .ok ())) ∧
    (env.faultAt .get_logging_conf = none → env.faultAt .fc_exists = none →
      (∀ n ∈ env.appenders, env.faultAt (.initialize_appender n) = none) →
      ((callsOf (on_signal env err w).1.trace).count .signal_set =
        (callsOf w.trace).count .signal_set + 1 ↔ err = 0)) ∧
    (ReloadReturns env → ((on_signal env err w).1.watches = w.watches + 1 ↔ err = 0)) ∧
    ((callsOf (on_signal env err w).1.trace).count .signal_set =
        (callsOf w.trace).count .signal_set + 1 ↔
      (err = 0 ∧ env.faultAt .get_logging_conf = none ∧ env.faultAt .fc_exists = none ∧
        ∀ n ∈ env.appenders, env.faultAt (.initialize_appender n) = none)) ∧
    ((on_signal env err w).2 = .ok () →
      ((on_signal env err w).1.watches = w.watches ↔ err ≠ 0)) := by
  have hcancel : err ≠ 0 → on_signal env err w = (w, .ok ()) := by
    intro herr
    simp [on_signal, herr, pure_apply]
  refine ⟨hcancel, ?_, ?_, ?_, ?_, ?_⟩
  · intro herr hw
    rw [deliver_of_watch env err w hw]
    simp [on_signal, herr, pure_apply]
  · intro h5 h6 h8
    by_cases herr : err = 0
    · subst herr
      simp [on_signal_rearm_count env h5 h6 h8 w]
    · simp [hcancel herr, herr]
  · intro h
    by_cases herr : err = 0
    · subst herr
      simp [(on_signal_summary env h w).2.1]
    · simp [hcancel herr, herr]
  · by_cases herr : err = 0
    · subst herr
      by_cases hc : env.faultAt .get_logging_conf = none ∧ env.faultAt .fc_exists = none ∧
          ∀ n ∈ env.appenders, env.faultAt (.initialize_appender n) = none
      · exact ⟨fun _ => ⟨rfl, hc⟩, fun _ => on_signal_rearm_count env hc.1 hc.2.1 hc.2.2 w⟩
      · have hno := on_signal_no_rearm env w hc
        rw [← count_signal_set_callsOf, ← count_signal_set_callsOf] at hno
        constructor
        · intro hcount
          omega
        · intro hall
          exact absurd hall.2 hc
    · simp [hcancel herr, herr]
  · intro hok
    by_cases herr : err = 0
    · subst herr
      have hw := (on_signal_summary env (on_signal_ok hok) w).2.1
      simp [hw]
    · simp [hcancel herr, herr]

/-- Instance of claim C9: the wait is cancelled with error code 125 while the one
watch of start-up is outstanding. -/
theorem cancelled_wait_ends_the_loop_witness :
    deliver quietEnv 125 { trace := [hupNotice], watches := 1 } =
      ({ trace := [hupNotice], watches := 0 }, .ok ()) ∧
    (on_signal quietEnv 0 World.start).1.watches = 0 + 1 :=
  ⟨(cancelled_wait_ends_the_loop quietEnv 125 { trace := [hupNotice], watches := 1 }).2.1
      (by decide) rfl,
   ((cancelled_wait_ends_the_loop quietEnv 0 World.start).2.2.2.1
      ⟨rfl, rfl, by decide, rfl, rfl⟩).mpr rfl⟩

/-- Claim C9 as stated fails: the cancelled wait is not the only handler run
without a re-arm attempt.  Here the wait completes with error code 0 and
`fc::exists` throws a `std::runtime_error`; the handler is left by that
exception after the existence test, builds no signal set and registers no
wait. -/
theorem handler_left_by_exception_does_not_rearm :
    on_signal (failingAt .fc_exists runtimeError) 0 { trace := [], watches := 0 } =
      ({ trace := [hupNotice, .call .get_logging_conf, .call .fc_exists], watches := 0 },
        .thrown runtimeError) ∧
    (callsOf (on_signal (failingAt .fc_exists runtimeError) 0
      { trace := [], watches := 0 }).1.trace).count .signal_set = 0 ∧
    (on_signal (failingAt .fc_exists runtimeError) 0
      { trace := [], watches := 0 }).1.watches = 0 := by
  decide

/-! ## Further properties -/

/-- Property X1.  `main` always returns, and what it returns is one of the four
enumerators of `return_codes`: no exception leaves `main`. -/
theorem main_always_returns_a_return_code (env : Env) (w : World) :
    ∃ code : return_codes, (main env w).2 = .ok code.toInt := by
  rcases main_cases env w with ⟨h, -, -⟩ | ⟨h, -, -⟩ | ⟨f, -, h, -⟩
  · exact ⟨.SUCCESS, h⟩
  · exact ⟨.INITIALIZE_FAIL, h⟩
  · by_cases hb : f.is_fc_exception = false ∧ f.is_interprocess_bad_alloc = true
    · exact ⟨.BAD_ALLOC, by simpa [hb] using h⟩
    · exact ⟨.OTHER_FAIL, by simpa [hb] using h⟩

/-- Property X2.  Only the call of `fc::configure_logging` is protected inside the
handler: when the path is obtained and tested, the file is absent and the
initialisation of the first appender throws `f`, the handler run ends with `f`
after that call and registers no new wait. -/
theorem appender_fault_leaves_the_handler (env : Env) (w : World) (f : Fault)
    (name : String) (rest : List String)
    (h5 : env.faultAt .get_logging_conf = none) (h6 : env.faultAt .fc_exists = none)
    (hex : env.config_exists = false) (happ : env.appenders = name :: rest)
    (hf : env.faultAt (.initialize_appender name) = some f) :
    on_signal env 0 w =
      ({ w with trace := w.trace ++ [hupNotice, .call .get_logging_conf, .call .fc_exists,
          .call (.initialize_appender name)] }, .thrown f) := by
  simp [on_signal, bind_apply, pure_apply, ilog, call_returns h5, call_returns h6, hex, happ,
    initialize_appenders, call_throws hf, emit, hupNotice]

/-- Instance of property X2: the appender `stderr` throws a `std::runtime_error`. -/
theorem appender_fault_leaves_the_handler_witness :
    on_signal { noConfigFile with
        faultAt := fun c => if c = .initialize_appender "stderr" then some runtimeError
          else none } 0 { trace := [], watches := 0 } =
      ({ trace := [hupNotice, .call .get_logging_conf, .call .fc_exists,
          .call (.initialize_appender "stderr")], watches := 0 }, .thrown runtimeError) :=
  appender_fault_leaves_the_handler _ { trace := [], watches := 0 } runtimeError "stderr"
    ["net"] rfl rfl rfl rfl (by decide)

/-- Property X3.  A reload whose `fc::configure_logging` returns leaves nothing
but that call behind: `detail::configure_logging` returns and writes no
record. -/
theorem successful_reload_is_silent (env : Env) (w : World)
    (h : env.faultAt .fc_configure_logging = none) :
    detail.configure_logging env w = (emit (.call .fc_configure_logging) w, .ok ()) := by
  simp [detail.configure_logging, tryCatch, call_returns h]

/-- Instance of property X3 at `quietEnv`. -/
theorem successful_reload_is_silent_witness :
    detail.configure_logging quietEnv World.start =
      ({ trace := [.call .fc_configure_logging], watches := 0 }, .ok ()) :=
  successful_reload_is_silent quietEnv World.start rfl

end FillPostgresql
